import Mathlib

/-
Verification of the MLLP HL7 listener core of this repository:
`healthcare/ris/hl7_listener.py` (frappe variant) and
`scripts/standalone_hl7_listener.py` (standalone variant).

Embedding conventions:
- Python `bytes` are `List Nat` (each element a byte value 0..255);
- Python `str` is `List Char`;
- `bytes.find(b, start)` is `bfind`;
- the inner `while True` frame-extraction loop of `handle_client` is
  `chunkLoop` (one iteration = `extractOne`), with the per-frame call to
  `process_hl7_message` abstracted as a pure function `proc` from the
  extracted payload to the optional framed-ACK bytes written back;
- the processor callback is external (spec §6), so its behavior per call is
  a parameter (`PyCall`): it returns a boolean, raises `TypeError`, or
  raises some other exception.
-/

namespace MLLP

/-- Source constant `MLLP_START = b"\x0b"` (VT). -/
def MLLP_START : Nat := 0x0B

/-- Source constant `MLLP_END_1 = b"\x1c"` (FS). -/
def MLLP_END_1 : Nat := 0x1C

/-- Source constant `MLLP_END_2 = b"\x0d"` (CR). -/
def MLLP_END_2 : Nat := 0x0D

/-- Helper for `bfind`: scan a list for the first occurrence of byte `b`,
`i` being the index of the list head in the original buffer. -/
def bfindAux (b : Nat) : List Nat → Nat → Option Nat
  | [], _ => none
  | x :: xs, i => if x = b then some i else bfindAux b xs (i + 1)

/-- Python `buffer.find(bytes([b]), start)`: index of the first occurrence of
byte `b` at a position `≥ start`, `none` standing for Python's `-1`. -/
def bfind (buffer : List Nat) (b : Nat) (start : Nat) : Option Nat :=
  (bfindAux b (buffer.drop start) 0).map (fun i => i + start)

/-- One iteration of the inner `while True` loop of `handle_client`
(identical in both listener variants):

    start = buffer.find(MLLP_START)
    if start == -1: break
    end = buffer.find(MLLP_END_1, start + 1)
    if end == -1 or end + 1 >= len(buffer): break
    hl7_payload = buffer[start + 1 : end]
    buffer = buffer[end + 2 :]

`none` means the loop breaks (incomplete frame, buffer retained);
`some (payload, rest)` is the extracted payload and the advanced buffer. -/
def extractOne (buffer : List Nat) : Option (List Nat × List Nat) :=
  match bfind buffer MLLP_START 0 with
  | none => none
  | some start =>
    match bfind buffer MLLP_END_1 (start + 1) with
    | none => none
    | some e =>
      if buffer.length ≤ e + 1 then none
      else some ((buffer.take e).drop (start + 1), buffer.drop (e + 2))

theorem bfindAux_le (b : Nat) : ∀ (l : List Nat) (i k : Nat),
    bfindAux b l i = some k → i ≤ k := by
  intro l
  induction l with
  | nil => intro i k h; simp [bfindAux] at h
  | cons x xs ih =>
    intro i k h
    by_cases hx : x = b
    · simp [bfindAux, hx] at h; omega
    · simp [bfindAux, hx] at h
      have := ih (i + 1) k h
      omega

theorem bfind_le (buffer : List Nat) (b s k : Nat)
    (h : bfind buffer b s = some k) : s ≤ k := by
  unfold bfind at h
  cases hb : bfindAux b (buffer.drop s) 0 with
  | none => rw [hb] at h; simp at h
  | some j => rw [hb] at h; simp at h; omega

/-- When a frame is extracted, the advanced buffer is strictly shorter:
this is why the `while True` loop terminates on a fixed chunk. -/
theorem extractOne_length_lt (buffer : List Nat) (pr : List Nat × List Nat)
    (h : extractOne buffer = some pr) : pr.2.length < buffer.length := by
  unfold extractOne at h
  split at h
  · simp at h
  · split at h
    · simp at h
    · split at h
      · simp at h
      · rename_i hlen
        rw [Option.some_inj] at h
        subst h
        simp only [List.length_drop]
        omega

/-- The inner extraction loop of `handle_client`, together with the
per-frame call `self.process_hl7_message(hl7_payload, conn)`: returns the
list of (payload, bytes written back) events in execution order and the
final buffer.  `proc` abstracts `process_hl7_message` as a pure function
(its result `none` meaning no bytes were written for that frame); the
surrounding `try/except` in `handle_client` means a processing failure
never exits the loop, which is why `chunkLoop` is total in `proc`. -/
def chunkLoop (proc : List Nat → Option (List Nat)) (buffer : List Nat) :
    List (List Nat × Option (List Nat)) × List Nat :=
  match h : extractOne buffer with
  | none => ([], buffer)
  | some pr =>
    let r := chunkLoop proc pr.2
    ((pr.1, proc pr.1) :: r.1, r.2)
termination_by buffer.length
decreasing_by exact extractOne_length_lt buffer pr h

/-- The extraction loop viewed on frames alone: the list of payloads
extracted from one buffer, in order, and the remaining buffer. -/
def extractAll (buffer : List Nat) : List (List Nat) × List Nat :=
  ((chunkLoop (fun _ => none) buffer).1.map Prod.fst,
   (chunkLoop (fun _ => none) buffer).2)

theorem chunkLoop_none (proc : List Nat → Option (List Nat))
    (buffer : List Nat) (h : extractOne buffer = none) :
    chunkLoop proc buffer = ([], buffer) := by
  rw [chunkLoop]
  split
  · rfl
  · rename_i pr h2
    rw [h] at h2
    exact absurd h2 (by simp)

theorem chunkLoop_some (proc : List Nat → Option (List Nat))
    (buffer p rest : List Nat) (h : extractOne buffer = some (p, rest)) :
    chunkLoop proc buffer =
      ((p, proc p) :: (chunkLoop proc rest).1, (chunkLoop proc rest).2) := by
  rw [chunkLoop]
  split
  · rename_i h2
    rw [h] at h2
    exact absurd h2 (by simp)
  · rename_i pr h2
    rw [h] at h2
    cases h2
    rfl

theorem bfindAux_append_not_mem (b : Nat) (l₁ l₂ : List Nat) (i : Nat)
    (hb : b ∉ l₁) : bfindAux b (l₁ ++ l₂) i = bfindAux b l₂ (i + l₁.length) := by
  induction l₁ generalizing i with
  | nil => simp
  | cons x xs ih =>
    have hx : x ≠ b := fun hxb => hb (by simp [hxb])
    have hxs : b ∉ xs := fun hm => hb (by simp [hm])
    simp only [List.cons_append, bfindAux, hx, if_false, List.length_cons,
      List.append_eq]
    rw [ih (i + 1) hxs]
    congr 1
    omega

theorem bfindAux_cons_self (b : Nat) (l : List Nat) (i : Nat) :
    bfindAux b (b :: l) i = some i := by
  simp [bfindAux]

theorem bfindAux_not_mem (b : Nat) (l : List Nat) (i : Nat) (hb : b ∉ l) :
    bfindAux b l i = none := by
  induction l generalizing i with
  | nil => rfl
  | cons x xs ih =>
    have hx : x ≠ b := fun hxb => hb (by simp [hxb])
    have hxs : b ∉ xs := fun hm => hb (by simp [hm])
    simp [bfindAux, hx, ih (i + 1) hxs]

/-- The scan result is the FIRST occurrence: no occurrence before it. -/
theorem bfindAux_take (b : Nat) : ∀ (l : List Nat) (i k : Nat),
    bfindAux b l i = some k → b ∉ l.take (k - i) := by
  intro l
  induction l with
  | nil => intro i k _; simp
  | cons x xs ih =>
    intro i k h
    by_cases hx : x = b
    · simp only [bfindAux, hx, if_true, Option.some_inj] at h
      subst h
      simp
    · simp only [bfindAux, hx, if_false] at h
      have hik : i + 1 ≤ k := bfindAux_le b xs (i + 1) k h
      have := ih (i + 1) k h
      intro hmem
      rcases Nat.exists_eq_add_of_le hik with ⟨d, hd⟩
      have hki : k - i = d + 1 := by omega
      rw [hki, List.take_succ_cons] at hmem
      rcases List.mem_cons.mp hmem with h1 | h1
      · exact hx h1.symm
      · exact this (by rwa [show k - (i + 1) = d by omega])

/-- Extraction at the exact frame shape of `handle_client`: the buffer is
junk (holding no start sentinel), the start sentinel, a payload free of the
FS byte, the two-byte end sentinel, then the remainder.  One loop iteration
yields exactly the payload and advances the buffer to the remainder,
discarding the junk. -/
theorem extractOne_frame (junk p rest : List Nat)
    (hj : MLLP_START ∉ junk) (hp : MLLP_END_1 ∉ p) :
    extractOne (junk ++ MLLP_START :: (p ++ MLLP_END_1 :: MLLP_END_2 :: rest))
      = some (p, rest) := by
  have h1 : bfind (junk ++ MLLP_START :: (p ++ MLLP_END_1 :: MLLP_END_2 :: rest))
      MLLP_START 0 = some junk.length := by
    simp [bfind, bfindAux_append_not_mem _ _ _ _ hj, bfindAux_cons_self]
  have hbuf : junk ++ MLLP_START :: (p ++ MLLP_END_1 :: MLLP_END_2 :: rest)
      = (junk ++ [MLLP_START]) ++ (p ++ MLLP_END_1 :: MLLP_END_2 :: rest) := by
    simp
  have h2 : bfind (junk ++ MLLP_START :: (p ++ MLLP_END_1 :: MLLP_END_2 :: rest))
      MLLP_END_1 (junk.length + 1) = some (p.length + (junk.length + 1)) := by
    unfold bfind
    rw [hbuf, show junk.length + 1 = (junk ++ [MLLP_START]).length by simp,
      List.drop_left, bfindAux_append_not_mem _ _ _ _ hp, bfindAux_cons_self]
    simp
  have hlen : ¬ ((junk ++ MLLP_START :: (p ++ MLLP_END_1 :: MLLP_END_2 :: rest)).length
      ≤ (p.length + (junk.length + 1)) + 1) := by
    simp [List.length_append]
    omega
  have hpay : ((junk ++ MLLP_START :: (p ++ MLLP_END_1 :: MLLP_END_2 :: rest)).take
      (p.length + (junk.length + 1))).drop (junk.length + 1) = p := by
    have hsplit : junk ++ MLLP_START :: (p ++ MLLP_END_1 :: MLLP_END_2 :: rest)
        = (junk ++ MLLP_START :: p) ++ (MLLP_END_1 :: MLLP_END_2 :: rest) := by
      simp
    rw [hsplit, show p.length + (junk.length + 1) = (junk ++ MLLP_START :: p).length
        by simp [List.length_append]; omega, List.take_left,
      show junk ++ MLLP_START :: p = (junk ++ [MLLP_START]) ++ p by simp,
      show junk.length + 1 = (junk ++ [MLLP_START]).length by simp, List.drop_left]
  have hrest : (junk ++ MLLP_START :: (p ++ MLLP_END_1 :: MLLP_END_2 :: rest)).drop
      ((p.length + (junk.length + 1)) + 2) = rest := by
    have hsplit : junk ++ MLLP_START :: (p ++ MLLP_END_1 :: MLLP_END_2 :: rest)
        = (junk ++ MLLP_START :: (p ++ [MLLP_END_1, MLLP_END_2])) ++ rest := by
      simp
    rw [hsplit, show (p.length + (junk.length + 1)) + 2
        = (junk ++ MLLP_START :: (p ++ [MLLP_END_1, MLLP_END_2])).length
        by simp [List.length_append]; omega, List.drop_left]
  simp only [extractOne, h1, h2, hlen, if_false, hpay, hrest]

/-- The extracted payload never contains the FS byte, because the slice is
cut at the FIRST `MLLP_END_1` found after the start sentinel. -/
theorem extractOne_payload_no_fs (buffer : List Nat) (pr : List Nat × List Nat)
    (h : extractOne buffer = some pr) : MLLP_END_1 ∉ pr.1 := by
  unfold extractOne at h
  split at h
  · simp at h
  · rename_i start h1
    split at h
    · simp at h
    · rename_i e h2
      split at h
      · simp at h
      · rw [Option.some_inj] at h
        subst h
        unfold bfind at h2
        cases hb : bfindAux MLLP_END_1 (buffer.drop (start + 1)) 0 with
        | none => rw [hb] at h2; simp at h2
        | some j =>
          rw [hb] at h2
          simp at h2
          have hnj : MLLP_END_1 ∉ (buffer.drop (start + 1)).take (j - 0) :=
            bfindAux_take _ _ _ _ hb
          show MLLP_END_1 ∉ (buffer.take e).drop (start + 1)
          rw [List.drop_take, show e - (start + 1) = j by omega]
          simpa using hnj

/-- Every payload dispatched by the inner loop of `handle_client` is free of
the FS byte, whatever the buffer and whatever the processing function. -/
theorem chunkLoop_payload_no_fs (proc : List Nat → Option (List Nat))
    (buffer : List Nat) :
    ∀ ev ∈ (chunkLoop proc buffer).1, MLLP_END_1 ∉ ev.1 := by
  cases h : extractOne buffer with
  | none => rw [chunkLoop_none proc buffer h]; simp
  | some pr =>
    rw [chunkLoop_some proc buffer pr.1 pr.2 h]
    intro ev hev
    rcases List.mem_cons.mp hev with h1 | h1
    · subst h1
      exact extractOne_payload_no_fs buffer pr h
    · exact chunkLoop_payload_no_fs proc pr.2 ev h1
termination_by buffer.length
decreasing_by exact extractOne_length_lt buffer pr h

/-! ### Text layer: Python `str` as `List Char` -/

/-- The ER7 segment separator, `"\r"`. -/
def CR : Char := '\r'

/-- The ER7 field separator, `"|"`. -/
def PIPE : Char := '|'

/-- Python `s.split(c)` for a single-character separator `c`. -/
def psplit (c : Char) : List Char → List (List Char)
  | [] => [[]]
  | x :: xs =>
    match psplit c xs with
    | [] => [[]]
    | h :: t => if x = c then [] :: h :: t else (x :: h) :: t

/-- Python `sep.join(parts)` for a single-character separator. -/
def pjoin (c : Char) : List (List Char) → List Char
  | [] => []
  | [x] => x
  | x :: xs => x ++ c :: pjoin c xs

theorem psplit_ne_nil (c : Char) (l : List Char) : psplit c l ≠ [] := by
  cases l with
  | nil => simp [psplit]
  | cons x xs =>
    simp only [psplit]
    split
    · simp
    · split <;> simp

theorem psplit_no_sep (c : Char) (a : List Char) (ha : c ∉ a) :
    psplit c a = [a] := by
  induction a with
  | nil => rfl
  | cons x xs ih =>
    have hx : x ≠ c := fun hxc => ha (by simp [hxc])
    have hxs : c ∉ xs := fun hm => ha (by simp [hm])
    simp [psplit, ih hxs, hx]

theorem psplit_append_cons (c : Char) (a b : List Char) (ha : c ∉ a) :
    psplit c (a ++ c :: b) = a :: psplit c b := by
  induction a with
  | nil =>
    cases hpb : psplit c b with
    | nil => exact absurd hpb (psplit_ne_nil c b)
    | cons h t => simp [psplit, hpb]
  | cons x xs ih =>
    have hx : x ≠ c := fun hxc => ha (by simp [hxc])
    have hxs : c ∉ xs := fun hm => ha (by simp [hm])
    simp [psplit, ih hxs, hx]

/-- No piece returned by `psplit` contains the separator. -/
theorem psplit_pieces_no_sep (c : Char) : ∀ (l : List Char),
    ∀ p ∈ psplit c l, c ∉ p := by
  intro l
  induction l with
  | nil => intro p hp; simp [psplit] at hp; simp [hp]
  | cons x xs ih =>
    intro p hp
    cases hps : psplit c xs with
    | nil => exact absurd hps (psplit_ne_nil c xs)
    | cons h t =>
      rw [psplit, hps] at hp
      by_cases hx : x = c
      · simp only [hx, if_true] at hp
        rcases List.mem_cons.mp hp with h1 | h1
        · simp [h1]
        · exact ih p (by rw [hps]; exact h1)
      · simp only [hx, if_false] at hp
        rcases List.mem_cons.mp hp with h1 | h1
        · subst h1
          intro hm
          rcases List.mem_cons.mp hm with h2 | h2
          · exact hx h2.symm
          · exact ih h (by rw [hps]; simp) h2
        · exact ih p (by rw [hps]; simp [h1])

/-- Characters of a `psplit` piece come from the original string. -/
theorem psplit_mem_subset (c x : Char) : ∀ (l : List Char),
    ∀ p ∈ psplit c l, x ∈ p → x ∈ l := by
  intro l
  induction l with
  | nil => intro p hp hx; simp [psplit] at hp; subst hp; simp at hx
  | cons y ys ih =>
    intro p hp hx
    cases hps : psplit c ys with
    | nil => exact absurd hps (psplit_ne_nil c ys)
    | cons h t =>
      rw [psplit, hps] at hp
      by_cases hy : y = c
      · simp only [hy, if_true] at hp
        rcases List.mem_cons.mp hp with h1 | h1
        · subst h1; simp at hx
        · exact List.mem_cons_of_mem _ (ih p (by rw [hps]; exact h1) hx)
      · simp only [hy, if_false] at hp
        rcases List.mem_cons.mp hp with h1 | h1
        · subst h1
          rcases List.mem_cons.mp hx with h2 | h2
          · simp [h2]
          · exact List.mem_cons_of_mem _ (ih h (by rw [hps]; simp) h2)
        · exact List.mem_cons_of_mem _ (ih p (by rw [hps]; simp [h1]) hx)

/-- Splitting a join on the very separator recovers the parts, provided no
part contains the separator. -/
theorem psplit_pjoin (c : Char) : ∀ (ls : List (List Char)), ls ≠ [] →
    (∀ l ∈ ls, c ∉ l) → psplit c (pjoin c ls) = ls := by
  intro ls
  induction ls with
  | nil => intro h; exact absurd rfl h
  | cons a tl ih =>
    intro _ hall
    cases tl with
    | nil => simpa [pjoin] using psplit_no_sep c a (hall a (by simp))
    | cons b tl2 =>
      have ha : c ∉ a := hall a (by simp)
      show psplit c (a ++ c :: pjoin c (b :: tl2)) = a :: b :: tl2
      rw [psplit_append_cons c a _ ha,
        ih (by simp) (fun l hl => hall l (by simp [List.mem_cons.mp hl]))]

/-! ### The frappe listener's ACK pipeline (`healthcare/ris/hl7_listener.py`) -/

/-- Source function `_find_msh_line`: first `\r`-separated line of the payload that starts
with `"MSH"`; `none` stands for Python's `None`. -/
def find_msh_line (payload : List Char) : Option (List Char) :=
  (psplit CR payload).find? (fun line => List.isPrefixOf "MSH".toList line)

/-- The minimal fallback ACK literal, returned by `_build_ack_from_msh_line`
when the header line is missing/empty or any exception occurs (and by the
standalone `build_ack` on exception). -/
def FALLBACK_ACK : List Char := "MSH|^~\\&||||||ACK||P|2.3\rMSA|AE|\r".toList

/-- The f-string
`f"MSH|^~\\&|{recv_app}|{recv_fac}|{sending_app}|{sending_fac}|{ts}||ACK|{msg_control_id}|P|2.3"`
of the ACK builder. -/
def mshAckLine (recv_app recv_fac sending_app sending_fac ts msg_control_id :
    List Char) : List Char :=
  "MSH|^~\\&|".toList ++ recv_app ++ "|".toList ++ recv_fac ++ "|".toList ++
    sending_app ++ "|".toList ++ sending_fac ++ "|".toList ++ ts ++
    "||ACK|".toList ++ msg_control_id ++ "|P|2.3".toList

/-- The f-string `f"MSA|{ack_text}|{msg_control_id}"` of the ACK builder. -/
def msaLine (ack_text msg_control_id : List Char) : List Char :=
  "MSA|".toList ++ ack_text ++ "|".toList ++ msg_control_id

/-- Source function `_build_ack_from_msh_line(msh_line, ack_text)`.  The current-time string
`ts` (`strftime("%Y%m%d%H%M%S")`) is passed as a parameter since it comes
from the clock.  Python's `if not msh_line` is true both for `None` and for
the empty string; the field reads cannot raise (they are length-guarded), so
the `except` branch of the source is unreachable and the fallback shows up
exactly on the falsy header. -/
def build_ack_from_msh_line (msh_line : Option (List Char))
    (ack_text : List Char) (ts : List Char) : List Char :=
  match msh_line with
  | none => FALLBACK_ACK
  | some line =>
    if line = [] then FALLBACK_ACK
    else
      let fields := psplit PIPE line
      let sending_app := if 2 < fields.length then fields.getD 2 [] else "SENDER".toList
      let sending_fac := if 3 < fields.length then fields.getD 3 [] else []
      let recv_app := if 4 < fields.length then fields.getD 4 [] else "RECEIVER".toList
      let recv_fac := if 5 < fields.length then fields.getD 5 [] else []
      let msg_control_id := if 9 < fields.length then fields.getD 9 [] else []
      pjoin CR [mshAckLine recv_app recv_fac sending_app sending_fac ts msg_control_id,
        msaLine ack_text msg_control_id] ++ [CR]

/-- UTF-8 encoding of one char (`str.encode("utf-8")`). -/
def utf8EncodeChar (ch : Char) : List Nat :=
  let c := ch.toNat
  if c < 0x80 then [c]
  else if c < 0x800 then [0xC0 + c / 64, 0x80 + c % 64]
  else if c < 0x10000 then
    [0xE0 + c / 4096, 0x80 + (c / 64) % 64, 0x80 + c % 64]
  else
    [0xF0 + c / 262144, 0x80 + (c / 4096) % 64, 0x80 + (c / 64) % 64,
     0x80 + c % 64]

/-- Python `text.encode("utf-8")`. -/
def utf8Encode (s : List Char) : List Nat := (s.map utf8EncodeChar).flatten

/-- Framing `MLLP_START + ack_msg.encode("utf-8") + MLLP_END_1 + MLLP_END_2`: the
framed ACK bytes written back to the socket. -/
def frameAck (ack_msg : List Char) : List Nat :=
  MLLP_START :: utf8Encode ack_msg ++ [MLLP_END_1, MLLP_END_2]

/-- An MLLP frame as produced by a peer: start sentinel, payload bytes, the
two-byte end sentinel. -/
def mllpFrame (payload : List Nat) : List Nat :=
  MLLP_START :: payload ++ [MLLP_END_1, MLLP_END_2]

/-- Behavior of one Python call that is expected to return a boolean: it
returns, raises `TypeError`, or raises some other exception.  The processor
callback is external (spec §6), so each call's behavior is a parameter. -/
inductive PyCall where
  | ok (b : Bool)
  | typeError
  | raises

/-- The processor-invocation block of the frappe `process_hl7_message`:

    try:
        success = process_hl7_message(parsed, raw_message_text=payload)
    except TypeError:
        success = process_hl7_message(parsed)

`r1` is the behavior of the two-argument call, `r2` of the one-argument
retry.  `none` means the block raised (only `TypeError` from the first call
is retried; everything else propagates to the outer `except`). -/
def frappe_success : PyCall → PyCall → Option Bool
  | .ok b, _ => some b
  | .typeError, .ok b => some b
  | .typeError, _ => none
  | .raises, _ => none

/-- The frappe `process_hl7_message` after the byte payload has been decoded
to text: computes the ACK from the raw MSH line and returns the framed bytes
written back, or `none` when the processor block raised and the outer
`except Exception` swallowed the error before any ACK was built (the
`hl7.parse` result does not influence the ACK, which is built from the raw
line, so parsing is not modelled). -/
def frappe_process (payload : List Char) (r1 r2 : PyCall) (ts : List Char) :
    Option (List Nat) :=
  match frappe_success r1 r2 with
  | none => none
  | some success =>
    let msh_line := find_msh_line payload
    let ack_text := if success then "AA".toList else "AE".toList
    let ack_msg := build_ack_from_msh_line msh_line ack_text ts
    some (frameAck ack_msg)

/-! ### The standalone listener (`scripts/standalone_hl7_listener.py`) -/

/-- The MSH fields the standalone `build_ack` reads off the `hl7apy` parse
result (`msh.MSH3.value` … `msh.MSH10.value`).  The parse result itself is
produced by the external `hl7apy` library, so the fields are a parameter:
`none` models an attribute access raising (the `except` branch). -/
structure MshFields where
  sending_app : List Char
  sending_fac : List Char
  recv_app : List Char
  recv_fac : List Char
  control_id : List Char

/-- The standalone `MLLPServer.build_ack`: same two f-strings as the frappe
builder, with the fallback literal on exception. -/
def standalone_build_ack (fields : Option MshFields) (ack_text ts : List Char) :
    List Char :=
  match fields with
  | none => FALLBACK_ACK
  | some f =>
    pjoin CR [mshAckLine f.recv_app f.recv_fac f.sending_app f.sending_fac ts
      f.control_id, msaLine ack_text f.control_id] ++ [CR]

/-- The handler-invocation block of the standalone `process_hl7_message`:

    try:
        success = bool(self.handler(message, addr))
    except Exception:
        logger.exception("Handler raised exception")
        success = False

Any exception from the handler becomes `success = False`. -/
def standalone_success : PyCall → Bool
  | .ok b => b
  | _ => false

/-- The standalone `process_hl7_message`: `parse_message` runs OUTSIDE any
inner `try`, so `parseRaises = true` reaches the outer `except` and nothing
is written back; otherwise the handler result selects `AA`/`AE` and the
framed ACK built from the parsed fields is written. -/
def standalone_process (fields : Option MshFields) (parseRaises : Bool)
    (r : PyCall) (ts : List Char) : Option (List Nat) :=
  if parseRaises then none
  else
    let success := standalone_success r
    let ack_text := if success then "AA".toList else "AE".toList
    some (frameAck (standalone_build_ack fields ack_text ts))

/-! ### Structure of the built ACK -/

theorem getD_mem_of_lt {α : Type} (l : List α) (d : α) (n : Nat)
    (h : n < l.length) : l.getD n d ∈ l := by
  rw [List.getD_eq_getElem l d h]
  exact List.getElem_mem h

/-- The ACK's MSH line is the `"|"`-join of its twelve fields. -/
theorem mshAckLine_eq_pjoin (ra rf sa sf ts mci : List Char) :
    mshAckLine ra rf sa sf ts mci
      = pjoin PIPE ["MSH".toList, "^~\\&".toList, ra, rf, sa, sf, ts, [],
          "ACK".toList, mci, "P".toList, "2.3".toList] := by
  simp [mshAckLine, pjoin, PIPE, List.append_assoc]

/-- The ACK's MSA line is the `"|"`-join of its three fields. -/
theorem msaLine_eq_pjoin (ack_text mci : List Char) :
    msaLine ack_text mci = pjoin PIPE ["MSA".toList, ack_text, mci] := by
  simp [msaLine, pjoin, PIPE, List.append_assoc]

/-- The whole two-line ACK is the `"\r"`-join of MSH line, MSA line and an
empty trailer. -/
theorem ack_join_cr (a b : List Char) :
    pjoin CR [a, b] ++ [CR] = pjoin CR [a, b, []] := by
  simp [pjoin]

theorem mshAckLine_not_mem (x : Char) (ra rf sa sf ts mci : List Char)
    (h1 : x ∉ ra) (h2 : x ∉ rf) (h3 : x ∉ sa) (h4 : x ∉ sf) (h5 : x ∉ ts)
    (h6 : x ∉ mci) (hl1 : x ∉ "MSH|^~\\&|".toList) (hl2 : x ∉ "|".toList)
    (hl3 : x ∉ "||ACK|".toList) (hl4 : x ∉ "|P|2.3".toList) :
    x ∉ mshAckLine ra rf sa sf ts mci := by
  intro hmem
  simp only [mshAckLine, List.mem_append] at hmem
  tauto

theorem msaLine_not_mem (x : Char) (ack_text mci : List Char)
    (h1 : x ∉ ack_text) (h2 : x ∉ mci) (hl1 : x ∉ "MSA|".toList)
    (hl2 : x ∉ "|".toList) : x ∉ msaLine ack_text mci := by
  intro hmem
  simp only [msaLine, List.mem_append] at hmem
  tauto

/-- Shape of the ACK `_build_ack_from_msh_line` produces from a parseable
header line: the `"\r"`-split of the ACK is MSH line, MSA line, empty
trailer, and the `"|"`-split of that MSH line swaps the sending and
receiving parties of the inbound header while echoing its control id. -/
theorem ack_structure (line ack_text ts S SF R RF CTRL : List Char)
    (hlen : 10 ≤ (psplit PIPE line).length)
    (hS : (psplit PIPE line).getD 2 [] = S)
    (hSF : (psplit PIPE line).getD 3 [] = SF)
    (hR : (psplit PIPE line).getD 4 [] = R)
    (hRF : (psplit PIPE line).getD 5 [] = RF)
    (hC : (psplit PIPE line).getD 9 [] = CTRL)
    (hcr : CR ∉ line) (hts1 : CR ∉ ts) (hts2 : PIPE ∉ ts)
    (hat1 : CR ∉ ack_text) :
    psplit CR (build_ack_from_msh_line (some line) ack_text ts)
      = [mshAckLine R RF S SF ts CTRL, msaLine ack_text CTRL, []]
    ∧ psplit PIPE (mshAckLine R RF S SF ts CTRL)
      = ["MSH".toList, "^~\\&".toList, R, RF, S, SF, ts, [], "ACK".toList,
         CTRL, "P".toList, "2.3".toList]
    ∧ msaLine ack_text CTRL = "MSA|".toList ++ ack_text ++ "|".toList ++ CTRL := by
  have hne : line ≠ [] := by
    intro he
    rw [he] at hlen
    simp [psplit] at hlen
  have c2 : 2 < (psplit PIPE line).length := by omega
  have c3 : 3 < (psplit PIPE line).length := by omega
  have c4 : 4 < (psplit PIPE line).length := by omega
  have c5 : 5 < (psplit PIPE line).length := by omega
  have c9 : 9 < (psplit PIPE line).length := by omega
  have hS2 : (psplit PIPE line)[2] = S :=
    (List.getD_eq_getElem (psplit PIPE line) [] c2).symm.trans hS
  have hSF2 : (psplit PIPE line)[3] = SF :=
    (List.getD_eq_getElem (psplit PIPE line) [] c3).symm.trans hSF
  have hR2 : (psplit PIPE line)[4] = R :=
    (List.getD_eq_getElem (psplit PIPE line) [] c4).symm.trans hR
  have hRF2 : (psplit PIPE line)[5] = RF :=
    (List.getD_eq_getElem (psplit PIPE line) [] c5).symm.trans hRF
  have hC2 : (psplit PIPE line)[9] = CTRL :=
    (List.getD_eq_getElem (psplit PIPE line) [] c9).symm.trans hC
  have hbuild : build_ack_from_msh_line (some line) ack_text ts
      = pjoin CR [mshAckLine R RF S SF ts CTRL, msaLine ack_text CTRL]
        ++ [CR] := by
    simp [build_ack_from_msh_line, hne, c2, c3, c4, c5, c9, hS2, hSF2, hR2,
      hRF2, hC2]
  have no_pipe : ∀ (n : Nat), n < (psplit PIPE line).length →
      PIPE ∉ (psplit PIPE line).getD n [] := fun n hn =>
    psplit_pieces_no_sep PIPE line _ (getD_mem_of_lt _ _ n hn)
  have no_cr : ∀ (n : Nat), n < (psplit PIPE line).length →
      CR ∉ (psplit PIPE line).getD n [] := fun n hn hm =>
    hcr (psplit_mem_subset PIPE CR line _ (getD_mem_of_lt _ _ n hn) hm)
  have hScr : CR ∉ S := hS ▸ no_cr 2 c2
  have hSFcr : CR ∉ SF := hSF ▸ no_cr 3 c3
  have hRcr : CR ∉ R := hR ▸ no_cr 4 c4
  have hRFcr : CR ∉ RF := hRF ▸ no_cr 5 c5
  have hCcr : CR ∉ CTRL := hC ▸ no_cr 9 c9
  have hSp : PIPE ∉ S := hS ▸ no_pipe 2 c2
  have hSFp : PIPE ∉ SF := hSF ▸ no_pipe 3 c3
  have hRp : PIPE ∉ R := hR ▸ no_pipe 4 c4
  have hRFp : PIPE ∉ RF := hRF ▸ no_pipe 5 c5
  have hCp : PIPE ∉ CTRL := hC ▸ no_pipe 9 c9
  have hmsh_cr : CR ∉ mshAckLine R RF S SF ts CTRL :=
    mshAckLine_not_mem CR R RF S SF ts CTRL hRcr hRFcr hScr hSFcr hts1 hCcr
      (by decide) (by decide) (by decide) (by decide)
  have hmsa_cr : CR ∉ msaLine ack_text CTRL :=
    msaLine_not_mem CR ack_text CTRL hat1 hCcr (by decide) (by decide)
  refine ⟨?_, ?_, ?_⟩
  · rw [hbuild, ack_join_cr, psplit_pjoin CR _ (by simp)]
    intro l hl
    rcases List.mem_cons.mp hl with h | hl
    · subst h; exact hmsh_cr
    rcases List.mem_cons.mp hl with h | hl
    · subst h; exact hmsa_cr
    rcases List.mem_cons.mp hl with h | hl
    · subst h; simp
    · simp at hl
  · rw [mshAckLine_eq_pjoin, psplit_pjoin PIPE _ (by simp)]
    intro l hl
    simp only [List.mem_cons, List.not_mem_nil, or_false] at hl
    rcases hl with h|h|h|h|h|h|h|h|h|h|h|h <;> subst h
    · decide
    · decide
    · exact hRp
    · exact hRFp
    · exact hSp
    · exact hSFp
    · exact hts2
    · simp
    · decide
    · exact hCp
    · decide
    · decide
  · rfl

/-! ### Remaining loop-level helper lemmas -/

/-- Extraction yields no frame and leaves the buffer untouched exactly when
one iteration of the loop breaks. -/
theorem extractAll_eq_nil_iff (buffer : List Nat) :
    extractAll buffer = ([], buffer) ↔ extractOne buffer = none := by
  constructor
  · intro h
    cases hopt : extractOne buffer with
    | none => rfl
    | some pr =>
      unfold extractAll at h
      rw [chunkLoop_some (fun _ => none) buffer pr.1 pr.2 hopt] at h
      simp at h
  · intro h
    unfold extractAll
    rw [chunkLoop_none _ _ h]
    rfl

/-- A well-formed frame at the head of the buffer (after possible junk) is
extracted with its exact payload. -/
theorem extractOne_head_frame (p : List Nat) (rest : List Nat)
    (hp : MLLP_END_1 ∉ p) :
    extractOne (mllpFrame p ++ rest) = some (p, rest) := by
  have h := extractOne_frame [] p rest (by simp) hp
  simpa [mllpFrame, List.append_assoc] using h

/-- One chunk containing two back-to-back well-formed frames is fully
consumed: both payloads are dispatched, in order, each with its own
write-back, before the loop ends (and hence before the next `recv`). -/
theorem chunkLoop_two_frames (proc : List Nat → Option (List Nat))
    (p1 p2 : List Nat) (h1 : MLLP_END_1 ∉ p1) (h2 : MLLP_END_1 ∉ p2) :
    chunkLoop proc (mllpFrame p1 ++ mllpFrame p2)
      = ([(p1, proc p1), (p2, proc p2)], []) := by
  have e1 : extractOne (mllpFrame p1 ++ mllpFrame p2) = some (p1, mllpFrame p2) :=
    extractOne_head_frame p1 (mllpFrame p2) h1
  have e2 : extractOne (mllpFrame p2) = some (p2, []) := by
    have h := extractOne_head_frame p2 [] h2
    simpa using h
  have e3 : extractOne ([] : List Nat) = none := by decide
  rw [chunkLoop_some proc _ p1 (mllpFrame p2) e1,
    chunkLoop_some proc _ p2 [] e2, chunkLoop_none proc [] e3]

/-! ### Claim theorems -/

/-- C1, counterexample: the buffer `0B 41 1C 58` contains the start sentinel
and contains NO two-byte end-sentinel sequence `1C 0D`, yet the decoder
extracts the frame `[0x41]` — the claim that a frame is extracted only once
a `0x1C` byte followed by a `0x0D` byte is present is false of the code,
which accepts ANY byte after the `0x1C`. -/
theorem C1_counterexample :
    MLLP_START ∈ [0x0B, 0x41, 0x1C, 0x58]
    ∧ ¬ [MLLP_END_1, MLLP_END_2] <:+: [0x0B, 0x41, 0x1C, 0x58]
    ∧ extractOne [0x0B, 0x41, 0x1C, 0x58] = some ([0x41], [])
    ∧ (extractAll [0x0B, 0x41, 0x1C, 0x58]).1 = [[0x41]] := by
  refine ⟨by decide, by decide, by decide, ?_⟩
  have h1 : extractOne [0x0B, 0x41, 0x1C, 0x58] = some ([0x41], []) := by decide
  have h2 : extractOne ([] : List Nat) = none := by decide
  unfold extractAll
  rw [chunkLoop_some _ _ _ _ h1, chunkLoop_none _ _ h2]
  rfl

/-- C1 (amended): for a buffer containing a start sentinel, extraction
yields zero frames and leaves the buffer unchanged (so retrying extracts
nothing, however often) exactly when every `0x1C` found after the start
sentinel is the very last buffered byte or absent; a frame IS extracted as
soon as a `0x1C` with at least one byte of any value after it (the code
never checks that byte is `0x0D`) is present after the start sentinel. -/
theorem C1_end_check_amended (buffer : List Nat) (s : Nat)
    (hstart : bfind buffer MLLP_START 0 = some s) :
    extractAll buffer = ([], buffer)
      ↔ ∀ e, bfind buffer MLLP_END_1 (s + 1) = some e
          → buffer.length ≤ e + 1 := by
  rw [extractAll_eq_nil_iff]
  unfold extractOne
  rw [hstart]
  cases he : bfind buffer MLLP_END_1 (s + 1) with
  | none => simp [he]
  | some e =>
    by_cases hl : buffer.length ≤ e + 1
    · simp [he, hl]
    · simp [he, hl]

theorem C1_amended_witness :
    bfind [0x0B, 0x41] MLLP_START 0 = some 0
    ∧ (extractAll [0x0B, 0x41] = ([], [0x0B, 0x41])
        ↔ ∀ e, bfind [0x0B, 0x41] MLLP_END_1 (0 + 1) = some e
            → List.length [0x0B, 0x41] ≤ e + 1) :=
  ⟨by decide, C1_end_check_amended [0x0B, 0x41] 0 (by decide)⟩

/-- C5: a buffer of the exact shape start sentinel, payload `p` free of the
FS byte, `0x1C`, `0x0D`, then `rest`, yields in one extraction step the
payload exactly `p` (both sentinels and the trailing terminator excluded)
and leaves the buffer equal to `rest`. -/
theorem C5_single_frame (p rest : List Nat) (hp : MLLP_END_1 ∉ p) :
    extractOne (MLLP_START :: (p ++ MLLP_END_1 :: MLLP_END_2 :: rest))
      = some (p, rest) := by
  have h := extractOne_frame [] p rest (by simp) hp
  simpa using h

theorem C5_witness :
    MLLP_END_1 ∉ [72, 73]
    ∧ extractOne (MLLP_START :: ([72, 73] ++ MLLP_END_1 :: MLLP_END_2 :: [99]))
        = some ([72, 73], [99]) :=
  ⟨by decide, C5_single_frame [72, 73] [99] (by decide)⟩

/-- C6: a single received chunk holding two complete well-formed frames
back-to-back is drained in one pass of the inner loop: both payloads are
extracted in order and each is dispatched and acknowledged separately (its
own `process_hl7_message` call and write-back), in arrival order, before
the handler returns to `recv`. -/
theorem C6_two_frames_one_chunk (proc : List Nat → Option (List Nat))
    (p1 p2 : List Nat) (h1 : MLLP_END_1 ∉ p1) (h2 : MLLP_END_1 ∉ p2) :
    chunkLoop proc (mllpFrame p1 ++ mllpFrame p2)
      = ([(p1, proc p1), (p2, proc p2)], []) :=
  chunkLoop_two_frames proc p1 p2 h1 h2

theorem C6_witness :
    MLLP_END_1 ∉ [65] ∧ MLLP_END_1 ∉ [66]
    ∧ chunkLoop (fun _ => none) (mllpFrame [65] ++ mllpFrame [66])
        = ([([65], none), ([66], none)], []) :=
  ⟨by decide, by decide,
    C6_two_frames_one_chunk (fun _ => none) [65] [66] (by decide) (by decide)⟩

/-- C9: junk bytes that precede the start sentinel are discarded together
with the extracted frame: the advanced buffer is computed from the absolute
end position (`buffer[end + 2 :]`), so nothing before the start sentinel
survives. -/
theorem C9_junk_discarded (junk p rest : List Nat) (hj : MLLP_START ∉ junk)
    (hp : MLLP_END_1 ∉ p) :
    extractOne (junk ++ MLLP_START :: (p ++ MLLP_END_1 :: MLLP_END_2 :: rest))
      = some (p, rest) :=
  extractOne_frame junk p rest hj hp

theorem C9_witness :
    MLLP_START ∉ [1, 2] ∧ MLLP_END_1 ∉ [65]
    ∧ extractOne ([1, 2] ++ MLLP_START :: ([65] ++ MLLP_END_1 :: MLLP_END_2 :: []))
        = some ([65], []) :=
  ⟨by decide, by decide, C9_junk_discarded [1, 2] [65] [] (by decide) (by decide)⟩

/-- C10: every payload the decoder hands to processing is free of the FS
byte `0x1C`, because the slice always ends at the first `0x1C` found after
the start sentinel; a body with an embedded `0x1C` can never be delivered
intact. -/
theorem C10_payload_never_holds_fs (buffer p : List Nat)
    (hp : p ∈ (extractAll buffer).1) : MLLP_END_1 ∉ p := by
  unfold extractAll at hp
  simp only [List.mem_map] at hp
  obtain ⟨ev, hev, hevp⟩ := hp
  rw [← hevp]
  exact chunkLoop_payload_no_fs _ buffer ev hev

theorem C10_witness :
    [65] ∈ (extractAll [0x0B, 65, 0x1C, 0x0D]).1 ∧ MLLP_END_1 ∉ [65] := by
  have h1 : extractOne [0x0B, 65, 0x1C, 0x0D] = some ([65], []) := by decide
  have h2 : extractOne ([] : List Nat) = none := by decide
  have hall : extractAll [0x0B, 65, 0x1C, 0x0D] = ([[65]], []) := by
    unfold extractAll
    rw [chunkLoop_some _ _ _ _ h1, chunkLoop_none _ _ h2]
    rfl
  have hmem : [65] ∈ (extractAll [0x0B, 65, 0x1C, 0x0D]).1 := by
    rw [hall]
    simp
  exact ⟨hmem, C10_payload_never_holds_fs [0x0B, 65, 0x1C, 0x0D] [65] hmem⟩

/-- C2: on processor success, the ACK built from an inbound MSH line whose
pipe-split fields give sending app `S` (index 2), sending facility `SF`
(3), receiving app `R` (4), receiving facility `RF` (5) and control id
`CTRL` (9) has an MSA segment `MSA|AA|CTRL`, and its MSH segment carries
`R`/`RF` in the sending-application/facility slots and `S`/`SF` in the
receiving slots — swapped relative to the input. -/
theorem C2_ack_swaps_and_echoes (payload line ts S SF R RF CTRL : List Char)
    (r2 : PyCall)
    (hfind : find_msh_line payload = some line)
    (hlen : 10 ≤ (psplit PIPE line).length)
    (hS : (psplit PIPE line).getD 2 [] = S)
    (hSF : (psplit PIPE line).getD 3 [] = SF)
    (hR : (psplit PIPE line).getD 4 [] = R)
    (hRF : (psplit PIPE line).getD 5 [] = RF)
    (hC : (psplit PIPE line).getD 9 [] = CTRL)
    (hcr : CR ∉ line) (hts1 : CR ∉ ts) (hts2 : PIPE ∉ ts) :
    ∃ ackMsh : List Char,
      frappe_process payload (.ok true) r2 ts
        = some (frameAck (build_ack_from_msh_line (some line) "AA".toList ts))
      ∧ psplit CR (build_ack_from_msh_line (some line) "AA".toList ts)
        = [ackMsh, "MSA|AA|".toList ++ CTRL, []]
      ∧ psplit PIPE ackMsh
        = ["MSH".toList, "^~\\&".toList, R, RF, S, SF, ts, [], "ACK".toList,
           CTRL, "P".toList, "2.3".toList] := by
  obtain ⟨h1, h2, h3⟩ := ack_structure line "AA".toList ts S SF R RF CTRL hlen
    hS hSF hR hRF hC hcr hts1 hts2 (by decide)
  refine ⟨mshAckLine R RF S SF ts CTRL, ?_, ?_, h2⟩
  · simp [frappe_process, frappe_success, hfind]
  · rw [h1]
    simp [msaLine, List.append_assoc]

def sampleMsh : List Char :=
  "MSH|^~\\&|SND|SF|RCV|RF|20||ORM^O01|CTRL1|P|2.3".toList

def samplePayload : List Char :=
  "MSH|^~\\&|SND|SF|RCV|RF|20||ORM^O01|CTRL1|P|2.3\rPID|1".toList

def sampleTs : List Char := "20240101120000".toList

theorem C2_witness :
    (find_msh_line samplePayload = some sampleMsh
    ∧ 10 ≤ (psplit PIPE sampleMsh).length
    ∧ (psplit PIPE sampleMsh).getD 2 [] = "SND".toList
    ∧ (psplit PIPE sampleMsh).getD 3 [] = "SF".toList
    ∧ (psplit PIPE sampleMsh).getD 4 [] = "RCV".toList
    ∧ (psplit PIPE sampleMsh).getD 5 [] = "RF".toList
    ∧ (psplit PIPE sampleMsh).getD 9 [] = "CTRL1".toList
    ∧ CR ∉ sampleMsh ∧ CR ∉ sampleTs ∧ PIPE ∉ sampleTs)
    ∧ (∃ ackMsh : List Char,
        frappe_process samplePayload (.ok true) PyCall.raises sampleTs
          = some (frameAck (build_ack_from_msh_line (some sampleMsh) "AA".toList
              sampleTs))
        ∧ psplit CR (build_ack_from_msh_line (some sampleMsh) "AA".toList sampleTs)
          = [ackMsh, "MSA|AA|".toList ++ "CTRL1".toList, []]
        ∧ psplit PIPE ackMsh
          = ["MSH".toList, "^~\\&".toList, "RCV".toList, "RF".toList,
             "SND".toList, "SF".toList, sampleTs, [], "ACK".toList,
             "CTRL1".toList, "P".toList, "2.3".toList]) :=
  ⟨⟨by decide, by decide, by decide, by decide, by decide, by decide, by decide,
    by decide, by decide, by decide⟩,
   C2_ack_swaps_and_echoes samplePayload sampleMsh sampleTs "SND".toList
     "SF".toList "RCV".toList "RF".toList "CTRL1".toList PyCall.raises
     (by decide) (by decide) (by decide) (by decide) (by decide) (by decide)
     (by decide) (by decide) (by decide) (by decide)⟩

/-- C3, counterexample: a frame whose processor callback raises a
(non-`TypeError`) exception in the frappe listener produces NO bytes back to
the peer — the outer `except Exception` swallows the error before any ACK
is built, contradicting the claim that an AE acknowledgement is sent for
that frame. -/
theorem C3_counterexample :
    frappe_process "MSH|^~\\&|A|B|C|D|T||ORM|X|P|2.3".toList PyCall.raises
      (PyCall.ok true) "20240101120000".toList = none := rfl

/-- C3 (amended): an exception raised inside the processor callback is
caught; the extraction loop continues with the next frame regardless of the
per-frame processing result, so the connection is not terminated; the
STANDALONE listener replies with an AE acknowledgement for that frame,
while the FRAPPE listener sends no acknowledgement at all for that frame. -/
theorem C3_exception_amended (payload ts : List Char) (r2 : PyCall)
    (fields : Option MshFields) (proc : List Nat → Option (List Nat))
    (p rest : List Nat) (hp : MLLP_END_1 ∉ p) :
    standalone_process fields false PyCall.raises ts
      = some (frameAck (standalone_build_ack fields "AE".toList ts))
    ∧ frappe_process payload PyCall.raises r2 ts = none
    ∧ chunkLoop proc (mllpFrame p ++ rest)
      = ((p, proc p) :: (chunkLoop proc rest).1, (chunkLoop proc rest).2) := by
  refine ⟨rfl, rfl, ?_⟩
  exact chunkLoop_some proc _ p rest (extractOne_head_frame p rest hp)

theorem C3_witness :
    MLLP_END_1 ∉ [65]
    ∧ (standalone_process none false PyCall.raises sampleTs
        = some (frameAck (standalone_build_ack none "AE".toList sampleTs))
      ∧ frappe_process "GARBAGE".toList PyCall.raises (PyCall.ok true) sampleTs
        = none
      ∧ chunkLoop (fun _ => none) (mllpFrame [65] ++ [])
        = (([65], none) :: (chunkLoop (fun _ => none) []).1,
           (chunkLoop (fun _ => none) []).2)) :=
  ⟨by decide,
   C3_exception_amended "GARBAGE".toList sampleTs (PyCall.ok true) none
     (fun _ => none) [65] [] (by decide)⟩

/-- C4, counterexample: in the STANDALONE listener `parse_message` runs
outside any inner `try`, so a payload that makes `hl7apy` raise (a
headerless payload such as `"GARBAGE"`, which `hl7apy` rejects because it
does not start with `MSH`) reaches the outer `except` and NO bytes are
returned to the peer — contradicting the claim that the listener still
returns a fully framed minimal AE ACK. -/
theorem C4_counterexample :
    find_msh_line "GARBAGE".toList = none
    ∧ standalone_process none true (PyCall.ok true) "20240101120000".toList
        = none := ⟨by decide, rfl⟩

/-- C4 (amended): an inbound frame whose payload yields no MSH header line
still gets a reply from the FRAPPE listener (provided the processor call
returns): the minimal fallback ACK, MLLP-framed in full, whose MSA segment
carries code AE and an empty control id, and the extraction loop goes on to
further well-formed frames, so the connection stays open.  The STANDALONE
listener, whose `parse_message` call sits outside any inner `try`, sends no
ACK at all for a frame whose payload makes the parser raise, though its
extraction loop equally continues. -/
theorem C4_malformed_header_ack (payload ts : List Char) (b : Bool)
    (r2 r : PyCall) (fields : Option MshFields) (pb p2 : List Nat)
    (proc : List Nat → Option (List Nat))
    (hfind : find_msh_line payload = none)
    (hpb : MLLP_END_1 ∉ pb) (hp2 : MLLP_END_1 ∉ p2) :
    frappe_process payload (.ok b) r2 ts = some (frameAck FALLBACK_ACK)
    ∧ frameAck FALLBACK_ACK
      = MLLP_START :: utf8Encode FALLBACK_ACK ++ [MLLP_END_1, MLLP_END_2]
    ∧ psplit CR FALLBACK_ACK
      = ["MSH|^~\\&||||||ACK||P|2.3".toList, "MSA|AE|".toList, []]
    ∧ psplit PIPE "MSA|AE|".toList = ["MSA".toList, "AE".toList, []]
    ∧ standalone_process fields true r ts = none
    ∧ chunkLoop proc (mllpFrame pb ++ mllpFrame p2)
      = ([(pb, proc pb), (p2, proc p2)], []) := by
  refine ⟨?_, rfl, by decide, by decide, rfl,
    chunkLoop_two_frames proc pb p2 hpb hp2⟩
  simp [frappe_process, frappe_success, hfind, build_ack_from_msh_line]

theorem C4_witness :
    (find_msh_line "GARBAGE".toList = none
    ∧ MLLP_END_1 ∉ [71] ∧ MLLP_END_1 ∉ [72])
    ∧ (frappe_process "GARBAGE".toList (.ok true) (PyCall.ok true) sampleTs
        = some (frameAck FALLBACK_ACK)
      ∧ frameAck FALLBACK_ACK
        = MLLP_START :: utf8Encode FALLBACK_ACK ++ [MLLP_END_1, MLLP_END_2]
      ∧ psplit CR FALLBACK_ACK
        = ["MSH|^~\\&||||||ACK||P|2.3".toList, "MSA|AE|".toList, []]
      ∧ psplit PIPE "MSA|AE|".toList = ["MSA".toList, "AE".toList, []]
      ∧ standalone_process none true (PyCall.ok true) sampleTs = none
      ∧ chunkLoop (fun _ => none) (mllpFrame [71] ++ mllpFrame [72])
        = ([([71], none), ([72], none)], [])) :=
  ⟨⟨by decide, by decide, by decide⟩,
   C4_malformed_header_ack "GARBAGE".toList sampleTs true (PyCall.ok true)
     (PyCall.ok true) none [71] [72] (fun _ => none) (by decide) (by decide)
     (by decide)⟩

/-- C7: on processor failure (callback returns `false`), the ACK built from
a parseable MSH header line with control id `CTRL` has an MSA segment
`MSA|AE|CTRL` — code AE with the same echoed control id. -/
theorem C7_failure_yields_ae (payload line ts CTRL : List Char) (r2 : PyCall)
    (hfind : find_msh_line payload = some line)
    (hlen : 10 ≤ (psplit PIPE line).length)
    (hC : (psplit PIPE line).getD 9 [] = CTRL)
    (hcr : CR ∉ line) (hts1 : CR ∉ ts) (hts2 : PIPE ∉ ts) :
    ∃ ackMsh : List Char,
      frappe_process payload (.ok false) r2 ts
        = some (frameAck (build_ack_from_msh_line (some line) "AE".toList ts))
      ∧ psplit CR (build_ack_from_msh_line (some line) "AE".toList ts)
        = [ackMsh, "MSA|AE|".toList ++ CTRL, []] := by
  obtain ⟨h1, h2, h3⟩ := ack_structure line "AE".toList ts
    ((psplit PIPE line).getD 2 []) ((psplit PIPE line).getD 3 [])
    ((psplit PIPE line).getD 4 []) ((psplit PIPE line).getD 5 []) CTRL hlen
    rfl rfl rfl rfl hC hcr hts1 hts2 (by decide)
  refine ⟨mshAckLine ((psplit PIPE line).getD 4 []) ((psplit PIPE line).getD 5 [])
    ((psplit PIPE line).getD 2 []) ((psplit PIPE line).getD 3 []) ts CTRL, ?_, ?_⟩
  · simp [frappe_process, frappe_success, hfind]
  · rw [h1]
    simp [msaLine, List.append_assoc]

theorem C7_witness :
    (find_msh_line samplePayload = some sampleMsh
    ∧ 10 ≤ (psplit PIPE sampleMsh).length
    ∧ (psplit PIPE sampleMsh).getD 9 [] = "CTRL1".toList
    ∧ CR ∉ sampleMsh ∧ CR ∉ sampleTs ∧ PIPE ∉ sampleTs)
    ∧ (∃ ackMsh : List Char,
        frappe_process samplePayload (.ok false) PyCall.raises sampleTs
          = some (frameAck (build_ack_from_msh_line (some sampleMsh) "AE".toList
              sampleTs))
        ∧ psplit CR (build_ack_from_msh_line (some sampleMsh) "AE".toList
            sampleTs)
          = [ackMsh, "MSA|AE|".toList ++ "CTRL1".toList, []]) :=
  ⟨⟨by decide, by decide, by decide, by decide, by decide, by decide⟩,
   C7_failure_yields_ae samplePayload sampleMsh sampleTs "CTRL1".toList
     PyCall.raises (by decide) (by decide) (by decide) (by decide) (by decide)
     (by decide)⟩

/-- C8: on the fallback path (no MSH header line obtainable) the requested
acknowledgement code is ignored: whatever `ack_text` is asked for — `AA`
included — both builders return the fixed fallback literal, whose MSA code
is AE and whose control id is empty; in particular a successfully processed
headerless message is still acknowledged AE. -/
theorem C8_fallback_ignores_requested_code (payload ts ack_text : List Char)
    (b : Bool) (r2 : PyCall)
    (hfind : find_msh_line payload = none) :
    frappe_process payload (.ok b) r2 ts = some (frameAck FALLBACK_ACK)
    ∧ build_ack_from_msh_line none ack_text ts = FALLBACK_ACK
    ∧ standalone_build_ack none ack_text ts = FALLBACK_ACK
    ∧ psplit CR FALLBACK_ACK
      = ["MSH|^~\\&||||||ACK||P|2.3".toList, "MSA|AE|".toList, []]
    ∧ psplit PIPE "MSA|AE|".toList = ["MSA".toList, "AE".toList, []] := by
  refine ⟨?_, rfl, rfl, by decide, by decide⟩
  simp [frappe_process, frappe_success, hfind, build_ack_from_msh_line]

theorem C8_witness :
    find_msh_line "NOTMSH|X".toList = none
    ∧ (frappe_process "NOTMSH|X".toList (.ok true) (PyCall.ok true) sampleTs
        = some (frameAck FALLBACK_ACK)
      ∧ build_ack_from_msh_line none "AA".toList sampleTs = FALLBACK_ACK
      ∧ standalone_build_ack none "AA".toList sampleTs = FALLBACK_ACK
      ∧ psplit CR FALLBACK_ACK
        = ["MSH|^~\\&||||||ACK||P|2.3".toList, "MSA|AE|".toList, []]
      ∧ psplit PIPE "MSA|AE|".toList = ["MSA".toList, "AE".toList, []]) :=
  ⟨by decide,
   C8_fallback_ignores_requested_code "NOTMSH|X".toList sampleTs "AA".toList
     true (PyCall.ok true) (by decide)⟩

end MLLP
